import Mathlib

/-!
# Collective creation (`server/graphql/v2/mutation/CreateCollectiveMutations.js`)

A shallow embedding of the `createCollective` resolver.  The resolver is an
`async` function that talks to several collaborators (the `Collective`,
`ConnectedAccount` and `Activity` models, the account resolver, the GitHub
library, the Cloudflare cache).  It is embedded as a program in a small
state-and-exception monad `M`:

* the state (`World`) holds the tables and logs the resolver writes to
  (`Store`) and a log of every collaborator call it makes (`Call`);
* a thrown JavaScript error is a value of `Thrown` (its class and message);
  the state reached when the error was thrown is kept, so that what was
  written before a failure stays observable;
* collaborators whose code is not part of the embedded file are read from an
  environment `Env`.
-/

set_option autoImplicit false

namespace CreateCollective

/-! ## Errors -/

/-- Class of a thrown JavaScript error value.  `Unauthorized` and
`ValidationFailed` are the two classes of the `errors` module the resolver
constructs; `Error` is a plain `new Error(..)`; `TypeError` is what the
runtime throws on a property read of `undefined`.  `NotFound`, `Conflict` and
`Internal` are the further kinds of the specification's taxonomy.  The
remaining classes are for errors raised by collaborators (the storage layer,
the GitHub library). -/
inductive ErrorClass where
  | Error
  | TypeError
  | Unauthorized
  | ValidationFailed
  | NotFound
  | Conflict
  | Internal
  | UniqueConstraintError
  | DatabaseError
  | GithubError
  deriving DecidableEq, Repr

/-- A thrown error: its class and its `message`. -/
structure Thrown where
  cls : ErrorClass
  message : String
  deriving DecidableEq, Repr

/-! ## Data model -/

/-- The authenticated user of the request (`req.remoteUser`). -/
structure RemoteUser where
  id : Nat
  CollectiveId : Nat
  email : String
  deriving DecidableEq, Repr

/-- An account as returned by `fetchAccountWithInput` or by the
`Collective.byId` loader: the fields the resolver reads. -/
structure Account where
  id : Nat
  slug : String
  isHostAccount : Bool
  deriving DecidableEq, Repr

/-- A reference to an account (`AccountInput`): by id or by slug. -/
inductive AccountInput where
  | id (n : Nat)
  | slug (s : String)
  deriving DecidableEq, Repr

/-- The `collective` argument (`CreateCollectiveInput`).  Optional fields of
the input object are `Option`s. -/
structure CreateCollectiveInput where
  name : String
  slug : String
  description : Option String
  tags : Option (List String)
  githubHandle : Option String
  deriving DecidableEq, Repr

/-- The arguments of the mutation. -/
structure Args where
  collective : CreateCollectiveInput
  host : Option AccountInput
  automateApprovalWithGithub : Bool
  deriving DecidableEq, Repr

/-- The part of the request the resolver reads besides the loaders. -/
structure Req where
  remoteUser : Option RemoteUser
  deriving DecidableEq, Repr

/-- A value stored under a settings key: either the `features` object (a map
from feature names to booleans) or a string. -/
inductive SettingValue where
  | features (flags : List (String × Bool))
  | text (s : String)
  deriving DecidableEq, Repr

/-- A settings object: its own properties, in insertion order. -/
abbrev Settings := List (String × SettingValue)

/-- The constant `DEFAULT_COLLECTIVE_SETTINGS`. -/
def DEFAULT_COLLECTIVE_SETTINGS : Settings :=
  [("features", SettingValue.features [("conversations", true)])]

/-- Property assignment `settings[k] = v`: replaces the value of an existing
property, otherwise adds the property at the end. -/
def Settings.set : Settings → String → SettingValue → Settings
  | [], k, v => [(k, v)]
  | (k', v') :: rest, k, v =>
    if k' = k then (k, v) :: rest else (k', v') :: Settings.set rest k v

/-- Property read `settings[k]` (`none` for `undefined`). -/
def Settings.get (s : Settings) (k : String) : Option SettingValue :=
  List.lookup k s

/-- The object `collectiveData` handed to `models.Collective.create`. -/
structure CollectiveData where
  name : String
  slug : String
  description : Option String
  tags : Option (List String)
  isActive : Bool
  CreatedByUserId : Nat
  settings : Settings
  deriving DecidableEq, Repr

/-- A row of the `Collectives` table: the data it was created from and its
generated id. -/
structure Collective extends CollectiveData where
  id : Nat
  deriving DecidableEq, Repr

/-- A row of the `ConnectedAccounts` table. -/
structure ConnectedAccount where
  CollectiveId : Nat
  service : String
  token : String
  deriving DecidableEq, Repr

/-- Modelled from the spec: the module `constants/roles` is not among the
embedded files; the specification calls `roles.ADMIN` the administrative
role. -/
inductive Role where
  | ADMIN
  | MEMBER
  | HOST
  deriving DecidableEq, Repr

/-- Modelled from the spec: the module `constants/activities` is not among
the embedded files; `COLLECTIVE_CREATED` is the type tag of the audit entry
the resolver writes. -/
inductive ActivityType where
  | COLLECTIVE_CREATED
  deriving DecidableEq, Repr

/-- What `collective.addUserWithRole(user, role, { CreatedByUserId })`
records. -/
structure RoleGrant where
  CollectiveId : Nat
  UserId : Nat
  role : Role
  CreatedByUserId : Nat
  deriving DecidableEq, Repr

/-- What `collective.addHost(host, user, { shouldAutomaticallyApprove })`
records. -/
structure HostAttachment where
  CollectiveId : Nat
  HostId : Nat
  UserId : Nat
  shouldAutomaticallyApprove : Bool
  deriving DecidableEq, Repr

/-- The `data` payload of the activity. -/
structure ActivityData where
  collective : Collective
  host : Option Account
  userEmail : String
  userCollective : Account
  deriving DecidableEq, Repr

/-- A row of the `Activities` table. -/
structure Activity where
  type : ActivityType
  UserId : Nat
  CollectiveId : Option Nat
  data : ActivityData
  deriving DecidableEq, Repr

/-- Everything the resolver can write to. -/
structure Store where
  collectives : List Collective
  roleGrants : List RoleGrant
  hostAttachments : List HostAttachment
  purgedPages : List String
  activities : List Activity
  deriving DecidableEq, Repr

/-- A call to a collaborator, with its arguments. -/
inductive Call where
  | collectiveFindOne (slug : String)
  | fetchAccountWithInput (input : AccountInput)
  | connectedAccountFindOne (CollectiveId : Nat) (service : String)
  | handleOpenSourceAutomatedApproval (githubHandle : String) (token : String)
  | collectiveCreate (data : CollectiveData)
  | addUserWithRole (CollectiveId : Nat) (UserId : Nat) (role : Role)
  | addHost (CollectiveId : Nat) (HostId : Nat) (shouldAutomaticallyApprove : Bool)
  | purgeCacheForPage (path : String)
  | collectiveByIdLoad (id : Nat)
  | activityCreate (type : ActivityType)
  deriving DecidableEq, Repr

/-- The state the resolver runs in: the store and the log of collaborator
calls made so far. -/
structure World where
  store : Store
  calls : List Call
  deriving DecidableEq, Repr

/-- The collaborators the resolver only reads from, and the one method of the
runtime it calls.

* `toLowerCase`: the method `String.prototype.toLowerCase` of the runtime, as
  called at line 36;
* `fetchAccountWithInput`: the account resolver (`none` for a reference that
  resolves to nothing);
* `connectedAccounts`: the `ConnectedAccounts` table;
* `opensourceHostId`: `defaultHostCollective('opensource').CollectiveId`;
* `handleOpenSourceAutomatedApproval`: the GitHub check, `none` when it
  returns normally and `some e` when it throws `e`;
* `createFault`: the error `models.Collective.create` throws for the given
  data, if any (a constraint violation, a lost race, a database failure);
* `collectiveById`: the `Collective.byId` loader. -/
structure Env where
  toLowerCase : String → String
  fetchAccountWithInput : AccountInput → Option Account
  connectedAccounts : List ConnectedAccount
  opensourceHostId : Nat
  handleOpenSourceAutomatedApproval : String → String → Option Thrown
  createFault : CollectiveData → Option Thrown
  collectiveById : Nat → Option Account

/-! ## The monad -/

/-- A computation that may read and write the world and may throw. -/
def M (α : Type) : Type := World → Except Thrown α × World

/-- Normal completion with a value. -/
def M.pure {α : Type} (a : α) : M α := fun w => (Except.ok a, w)

/-- Sequencing: a thrown error skips the continuation and keeps the world
reached so far. -/
def M.bind {α β : Type} (m : M α) (f : α → M β) : M β := fun w =>
  match m w with
  | (Except.ok a, w') => f a w'
  | (Except.error e, w') => (Except.error e, w')

instance : Monad M where
  pure := M.pure
  bind := M.bind

/-- The statement `throw e`. -/
def throwE {α : Type} (e : Thrown) : M α := fun w => (Except.error e, w)

/-- The statement `try { body } catch (error) { handler(error) }`. -/
def tryCatchE {α : Type} (body : M α) (handler : Thrown → M α) : M α := fun w =>
  match body w with
  | (Except.ok a, w') => (Except.ok a, w')
  | (Except.error e, w') => handler e w'

/-- Records a collaborator call in the log. -/
def logCall (c : Call) : M Unit := fun w =>
  (Except.ok (), { w with calls := w.calls ++ [c] })

/-! ## String helpers -/

/-- The method `String.prototype.includes` for a one-character needle. -/
def includes (s : String) (c : Char) : Bool := s.data.contains c

/-- Truthiness of an optional string: `undefined`, `null` and the empty
string are falsy. -/
def truthy : Option String → Bool
  | none => false
  | some s => s != ""

/-! ## Collaborators -/

/-- The call `models.Collective.findOne({ where: { slug } })`. -/
def collectiveFindOne (slug : String) : M (Option Collective) := fun w =>
  (Except.ok (w.store.collectives.find? (fun c => c.slug == slug)),
    { w with calls := w.calls ++ [Call.collectiveFindOne slug] })

/-- The call `fetchAccountWithInput(input, { loaders })`. -/
def fetchAccountWithInput (env : Env) (input : AccountInput) : M (Option Account) := do
  logCall (Call.fetchAccountWithInput input)
  pure (env.fetchAccountWithInput input)

/-- The row `findOne({ where: { CollectiveId, service } })` selects from the
`ConnectedAccounts` table: the first one with that owner and that service. -/
def Env.findConnectedAccount (env : Env) (collectiveId : Nat) (service : String) :
    Option ConnectedAccount :=
  env.connectedAccounts.find? (fun a => a.CollectiveId == collectiveId && a.service == service)

/-- The call `models.ConnectedAccount.findOne({ where: { CollectiveId, service } })`. -/
def connectedAccountFindOne (env : Env) (collectiveId : Nat) (service : String) :
    M (Option ConnectedAccount) := do
  logCall (Call.connectedAccountFindOne collectiveId service)
  pure (env.findConnectedAccount collectiveId service)

/-- The call `github.handleOpenSourceAutomatedApproval(githubHandle, token)`. -/
def handleOpenSourceAutomatedApproval (env : Env) (githubHandle token : String) : M Unit := do
  logCall (Call.handleOpenSourceAutomatedApproval githubHandle token)
  match env.handleOpenSourceAutomatedApproval githubHandle token with
  | some e => throwE e
  | none => pure ()

/-- The call `models.Collective.create(collectiveData)`: throws the storage
layer's error if there is one, otherwise inserts a row with a fresh id and
returns it. -/
def collectiveCreate (env : Env) (data : CollectiveData) : M Collective := do
  logCall (Call.collectiveCreate data)
  match env.createFault data with
  | some e => throwE e
  | none => fun w =>
    let collective : Collective := { data with id := w.store.collectives.length + 1 }
    (Except.ok collective,
      { w with store := { w.store with collectives := w.store.collectives ++ [collective] } })

/-- The call `collective.addUserWithRole(user, role, { CreatedByUserId })`. -/
def addUserWithRole (collective : Collective) (user : RemoteUser) (role : Role)
    (createdByUserId : Nat) : M Unit := fun w =>
  (Except.ok (),
    { store := { w.store with
        roleGrants := w.store.roleGrants ++ [⟨collective.id, user.id, role, createdByUserId⟩] },
      calls := w.calls ++ [Call.addUserWithRole collective.id user.id role] })

/-- The call `collective.addHost(host, user, { shouldAutomaticallyApprove })`. -/
def addHost (collective : Collective) (host : Account) (user : RemoteUser)
    (shouldAutomaticallyApprove : Bool) : M Unit := fun w =>
  (Except.ok (),
    { store := { w.store with
        hostAttachments := w.store.hostAttachments ++
          [⟨collective.id, host.id, user.id, shouldAutomaticallyApprove⟩] },
      calls := w.calls ++ [Call.addHost collective.id host.id shouldAutomaticallyApprove] })

/-- The call `purgeCacheForPage(path)`.  The resolver does not wait for it;
what is recorded is that the purge was requested. -/
def purgeCacheForPage (path : String) : M Unit := fun w =>
  (Except.ok (),
    { store := { w.store with purgedPages := w.store.purgedPages ++ [path] },
      calls := w.calls ++ [Call.purgeCacheForPage path] })

/-- The call `loaders.Collective.byId.load(id)`. -/
def collectiveByIdLoad (env : Env) (id : Nat) : M (Option Account) := do
  logCall (Call.collectiveByIdLoad id)
  pure (env.collectiveById id)

/-- The call `models.Activity.create(activity)`.  The resolver does not wait
for it; what is recorded is the activity it was asked to create. -/
def activityCreate (activity : Activity) : M Unit := fun w =>
  (Except.ok (),
    { store := { w.store with activities := w.store.activities ++ [activity] },
      calls := w.calls ++ [Call.activityCreate activity.type] })

/-! ## The resolver -/

/-- Message of the error thrown when the slug is taken. -/
def slugTakenMessage (slug : String) : String :=
  "The slug " ++ slug ++
    " is already taken. Please use another slug for your collective.\x7d."

/-- Lines 41-50: resolution and validation of the optional host. -/
def resolveHost (env : Env) (args : Args) : M (Option Account) :=
  match args.host with
  | none => pure none
  | some input => do
    let host ← fetchAccountWithInput env input
    match host with
    | none => throwE ⟨ErrorClass.ValidationFailed, "Host Not Found"⟩
    | some h =>
      if !h.isHostAccount then
        throwE ⟨ErrorClass.ValidationFailed, "Host account is not activated as Host."⟩
      else
        pure (some h)

/-- Lines 57-68: the `try` block and its `catch`. -/
def verifyWithGithub (env : Env) (remoteUser : RemoteUser) (githubHandle : String) : M Bool :=
  tryCatchE
    (do
      let githubAccount ← connectedAccountFindOne env remoteUser.CollectiveId "github"
      match githubAccount with
      | none =>
        throwE ⟨ErrorClass.Error,
          "You must have a connected GitHub Account to claim a collective"⟩
      | some account =>
        handleOpenSourceAutomatedApproval env githubHandle account.token
        pure true)
    (fun error => throwE ⟨ErrorClass.ValidationFailed, error.message⟩)

/-- Lines 69-77: the GitHub setting and the `open source` tag. -/
def markOpenSource (collectiveData : CollectiveData) (githubHandle : String) : CollectiveData :=
  let settings :=
    if includes githubHandle '/' then
      collectiveData.settings.set "githubRepo" (SettingValue.text githubHandle)
    else
      collectiveData.settings.set "githubOrg" (SettingValue.text githubHandle)
  let tags := collectiveData.tags.getD []
  let tags := if !tags.contains "open source" then tags ++ ["open source"] else tags
  { collectiveData with settings := settings, tags := some tags }

/-- Lines 52-79: the automated approval for the open source host.  Returns
`shouldAutomaticallyApprove` and the possibly updated `collectiveData`. -/
def automatedApproval (env : Env) (args : Args) (remoteUser : RemoteUser)
    (host : Option Account) (collectiveData : CollectiveData) : M (Bool × CollectiveData) :=
  if args.automateApprovalWithGithub && truthy args.collective.githubHandle then
    let githubHandle := args.collective.githubHandle.getD ""
    match host with
    | none => throwE ⟨ErrorClass.TypeError, "Cannot read property id of undefined"⟩
    | some h =>
      if h.id = env.opensourceHostId then do
        let shouldAutomaticallyApprove ← verifyWithGithub env remoteUser githubHandle
        pure (shouldAutomaticallyApprove, markOpenSource collectiveData githubHandle)
      else
        pure (false, collectiveData)
  else
    pure (false, collectiveData)

/-- Lines 81-110: creation, role, host, activity. -/
def persist (env : Env) (remoteUser : RemoteUser) (host : Option Account)
    (shouldAutomaticallyApprove : Bool) (collectiveData : CollectiveData) : M Collective := do
  let collective ← collectiveCreate env collectiveData
  addUserWithRole collective remoteUser Role.ADMIN remoteUser.id
  match host with
  | some h =>
    addHost collective h remoteUser shouldAutomaticallyApprove
    purgeCacheForPage ("/" ++ h.slug)
  | none => pure ()
  let remoteUserCollective ← collectiveByIdLoad env remoteUser.CollectiveId
  match remoteUserCollective with
  | none => throwE ⟨ErrorClass.TypeError, "Cannot read property info of null"⟩
  | some userCollective =>
    activityCreate
      { type := ActivityType.COLLECTIVE_CREATED
        UserId := remoteUser.id
        CollectiveId := host.map (fun h => h.id)
        data :=
          { collective := collective
            host := host
            userEmail := remoteUser.email
            userCollective := userCollective } }
    pure collective

/-- Lines 29-34: the object `collectiveData` as first built from the picked
input fields, the creator and a copy of the default settings. -/
def initialCollectiveData (args : Args) (remoteUser : RemoteUser) : CollectiveData :=
  { name := args.collective.name
    slug := args.collective.slug
    description := args.collective.description
    tags := args.collective.tags
    isActive := false
    CreatedByUserId := remoteUser.id
    settings := DEFAULT_COLLECTIVE_SETTINGS }

/-- The resolver `createCollective(_, args, req)`. -/
def createCollective (env : Env) (args : Args) (req : Req) : M Collective :=
  match req.remoteUser with
  | none =>
    throwE ⟨ErrorClass.Unauthorized, "You need to be logged in to create a collective"⟩
  | some remoteUser => do
    let collectiveData := initialCollectiveData args remoteUser
    let collectiveWithSlug ← collectiveFindOne (env.toLowerCase collectiveData.slug)
    if collectiveWithSlug.isSome then
      throwE ⟨ErrorClass.Error, slugTakenMessage collectiveData.slug⟩
    else do
      let host ← resolveHost env args
      let (shouldAutomaticallyApprove, collectiveData) ←
        automatedApproval env args remoteUser host collectiveData
      persist env remoteUser host shouldAutomaticallyApprove collectiveData

/-- Runs the resolver on a store, with an empty call log. -/
def run (env : Env) (s : Store) (args : Args) (req : Req) : Except Thrown Collective × World :=
  createCollective env args req { store := s, calls := [] }

/-! ## Preconditions shared by several statements -/

/-- The request goes through the automated approval and passes it: the actor
is authenticated, the slug is free, the host reference resolves to an
activated host that is the open source host, automation is requested with a
non-empty handle, the actor has a linked GitHub account and the GitHub check
accepts the handle with that account's token. -/
structure ApprovedByGithub (env : Env) (s : Store) (args : Args) (req : Req)
    (user : RemoteUser) (host : Account) (githubHandle : String) (account : ConnectedAccount) :
    Prop where
  authenticated : req.remoteUser = some user
  slugFree : ∀ c ∈ s.collectives, c.slug ≠ env.toLowerCase args.collective.slug
  hostResolved : ∃ input, args.host = some input ∧ env.fetchAccountWithInput input = some host
  hostActivated : host.isHostAccount = true
  openSourceHost : host.id = env.opensourceHostId
  automationRequested : args.automateApprovalWithGithub = true
  handlePresent : args.collective.githubHandle = some githubHandle ∧ githubHandle ≠ ""
  accountLinked : env.findConnectedAccount user.CollectiveId "github" = some account
  adapterSucceeds : env.handleOpenSourceAutomatedApproval githubHandle account.token = none

/-! ## Concrete data used in the examples -/

/-- A user. -/
def user1 : RemoteUser := { id := 1, CollectiveId := 10, email := "u1@example.org" }

/-- The open source host. -/
def oscHost : Account := { id := 772, slug := "opensource", isHostAccount := true }

/-- Another host. -/
def hostH1 : Account := { id := 5, slug := "h1", isHostAccount := true }

/-- An account that is not activated as host. -/
def plainAccount : Account := { id := 6, slug := "plain", isHostAccount := false }

/-- The linked GitHub account of `user1`. -/
def githubAccount1 : ConnectedAccount :=
  { CollectiveId := 10, service := "github", token := "tok" }

/-- Lowercases the letters `A` to `Z` and leaves every other character as it
is.  On a string whose only cased letters are ASCII letters this is the value
of `String.prototype.toLowerCase`; the examples apply it to such strings
only. -/
def asciiToLowerCase (s : String) : String := String.mk (s.data.map Char.toLower)

/-- An environment: three accounts, one linked GitHub account for `user1`,
a GitHub check that accepts everything, a storage layer that never fails.
The slugs of the examples are ASCII, for which `asciiToLowerCase` is the
runtime's `toLowerCase`. -/
def env1 : Env :=
  { toLowerCase := asciiToLowerCase
    fetchAccountWithInput := fun input =>
      match input with
      | AccountInput.id 772 => some oscHost
      | AccountInput.id 5 => some hostH1
      | AccountInput.id 6 => some plainAccount
      | _ => none
    connectedAccounts := [githubAccount1]
    opensourceHostId := 772
    handleOpenSourceAutomatedApproval := fun _ _ => none
    createFault := fun _ => none
    collectiveById := fun id => some { id := id, slug := "user", isHostAccount := false } }

/-- The environment `env1` with a GitHub check that rejects everything. -/
def envGithubFails : Env :=
  { env1 with
    handleOpenSourceAutomatedApproval := fun _ _ =>
      some ⟨ErrorClass.GithubError,
        "We could not verify that you are admin of the repository"⟩ }

/-- The environment `env1` with a storage layer that reports a uniqueness
violation on every insert. -/
def envUniqueViolation : Env :=
  { env1 with
    createFault := fun _ => some ⟨ErrorClass.UniqueConstraintError, "slug must be unique"⟩ }

/-- The environment `env1` with a storage layer that fails on every insert
for another reason. -/
def envDatabaseDown : Env :=
  { env1 with
    createFault := fun _ => some ⟨ErrorClass.DatabaseError, "connection terminated"⟩ }

/-- The empty store. -/
def emptyStore : Store :=
  { collectives := [], roleGrants := [], hostAttachments := [], purgedPages := [],
    activities := [] }

/-- An existing collective with the given slug. -/
def existingCollective (slug : String) : Collective :=
  { name := "Existing", slug := slug, description := none, tags := none, isActive := true,
    CreatedByUserId := 7, settings := DEFAULT_COLLECTIVE_SETTINGS, id := 1 }

/-- A store that holds one collective, with the given slug. -/
def storeWith (slug : String) : Store :=
  { emptyStore with collectives := [existingCollective slug] }

/-- The input for a collective named `Foo` with slug `foo`. -/
def fooInput : CreateCollectiveInput :=
  { name := "Foo", slug := "foo", description := none, tags := none, githubHandle := none }

/-- The input `fooInput` with the handle `acme/widget`. -/
def widgetInput : CreateCollectiveInput :=
  { fooInput with githubHandle := some "acme/widget" }

/-- A request by `user1`. -/
def req1 : Req := { remoteUser := some user1 }

/-- The request for `acme/widget` on the open source host with automation. -/
def oscArgs : Args :=
  { collective := widgetInput, host := some (AccountInput.id 772),
    automateApprovalWithGithub := true }

/-- The request for `acme/widget` on the host `hostH1`. -/
def h1Args : Args :=
  { collective := widgetInput, host := some (AccountInput.id 5),
    automateApprovalWithGithub := true }

/-- The request `oscArgs` with tags that hold `open source` twice. -/
def twiceTaggedArgs : Args :=
  { oscArgs with
    collective := { widgetInput with tags := some ["open source", "open source"] } }

/-- The request `oscArgs` with the handle `acme`, which has no separator. -/
def orgArgs : Args :=
  { oscArgs with collective := { widgetInput with githubHandle := some "acme" } }

/-- The collective the request `oscArgs` creates in the empty store. -/
def widgetCollective : Collective :=
  { markOpenSource (initialCollectiveData oscArgs user1) "acme/widget" with id := 1 }

/-! ## Auxiliary facts -/

/-- A slug no row carries is not found. -/
theorem find_none_of_free (s : Store) (slug : String)
    (h : ∀ c ∈ s.collectives, c.slug ≠ slug) :
    s.collectives.find? (fun c => c.slug == slug) = none := by
  simp [List.find?_eq_none]
  exact h

/-- A slug some row carries is found. -/
theorem find_some_of_taken (s : Store) (slug : String)
    (h : ∃ c ∈ s.collectives, c.slug = slug) :
    (s.collectives.find? (fun c => c.slug == slug)).isSome = true := by
  simp [List.find?_isSome]
  exact h

/-- The tags after `markOpenSource`: the tag is added when it is missing and
the array is left alone otherwise. -/
theorem markOpenSource_tags_count (d : CollectiveData) (githubHandle : String) :
    ∃ t, (markOpenSource d githubHandle).tags = some t ∧
      t.count "open source" = max 1 ((d.tags.getD []).count "open source") := by
  refine ⟨_, rfl, ?_⟩
  by_cases hm : "open source" ∈ d.tags.getD []
  · have : 0 < (d.tags.getD []).count "open source" := List.count_pos_iff.mpr hm
    simp [hm]
  · have : (d.tags.getD []).count "open source" = 0 := List.count_eq_zero.mpr hm
    simp [hm, this]

/-- The settings after `markOpenSource`, starting from the default settings. -/
theorem markOpenSource_settings (d : CollectiveData) (githubHandle : String)
    (hd : d.settings = DEFAULT_COLLECTIVE_SETTINGS) :
    (markOpenSource d githubHandle).settings.get "features" =
        some (SettingValue.features [("conversations", true)]) ∧
    (includes githubHandle '/' = true →
      (markOpenSource d githubHandle).settings.get "githubRepo" =
          some (SettingValue.text githubHandle) ∧
        (markOpenSource d githubHandle).settings.get "githubOrg" = none) ∧
    (includes githubHandle '/' = false →
      (markOpenSource d githubHandle).settings.get "githubOrg" =
          some (SettingValue.text githubHandle) ∧
        (markOpenSource d githubHandle).settings.get "githubRepo" = none) := by
  cases hi : includes githubHandle '/' <;>
    simp [markOpenSource, hd, hi, DEFAULT_COLLECTIVE_SETTINGS, Settings.set, Settings.get,
      List.lookup]

/-- The rows of the `Collectives` table after a request that passed the
automated approval, when the insert of its data does not fail. -/
theorem approved_collectives (env : Env) (s : Store) (args : Args) (req : Req)
    (user : RemoteUser) (host : Account) (githubHandle : String) (account : ConnectedAccount)
    (h : ApprovedByGithub env s args req user host githubHandle account)
    (hc : env.createFault (markOpenSource (initialCollectiveData args user) githubHandle) =
      none) :
    (run env s args req).2.store.collectives = s.collectives ++
      [{ markOpenSource (initialCollectiveData args user) githubHandle with
        id := s.collectives.length + 1 }] := by
  obtain ⟨hu, hfree, ⟨input, hh, hfa⟩, hia, hosc, hauto, ⟨hgh, hne⟩, hacc, hok⟩ := h
  have hf := find_none_of_free s _ hfree
  have hslug : (initialCollectiveData args user).slug = args.collective.slug := rfl
  cases hl : env.collectiveById user.CollectiveId <;>
  simp [run, createCollective, hslug, resolveHost, fetchAccountWithInput,
    collectiveFindOne, automatedApproval, verifyWithGithub, connectedAccountFindOne,
    handleOpenSourceAutomatedApproval, tryCatchE, truthy, persist, collectiveCreate,
    addUserWithRole, addHost, purgeCacheForPage, collectiveByIdLoad, activityCreate,
    bind, M.bind, pure, M.pure, throwE, logCall, hu, hf, hh, hfa, hia, hosc, hauto,
    hgh, hne, hacc, hok, hc, hl]

/-- The test `includes` makes is whether the character occurs in the string. -/
theorem includes_eq_true_iff (s : String) (c : Char) : includes s c = true ↔ c ∈ s.data := by
  simp [includes]

/-- When the insert fails, `persist` stops there with the error of the
storage layer. -/
theorem persist_fault (env : Env) (user : RemoteUser) (host : Option Account) (flag : Bool)
    (d : CollectiveData) (e : Thrown) (w : World) (h : env.createFault d = some e) :
    persist env user host flag d w =
      (Except.error e, { w with calls := w.calls ++ [Call.collectiveCreate d] }) := by
  simp [persist, collectiveCreate, bind, M.bind, throwE, logCall, h]

/-- The only insert `persist` attempts is the one of the data it is given. -/
theorem persist_create_call (env : Env) (user : RemoteUser) (host : Option Account)
    (flag : Bool) (data d : CollectiveData) (w : World)
    (hw : ∀ d', Call.collectiveCreate d' ∉ w.calls)
    (h : Call.collectiveCreate d ∈ (persist env user host flag data w).2.calls) :
    d = data := by
  have hw' := hw d
  cases hc : env.createFault data <;> cases hl : env.collectiveById user.CollectiveId <;>
    cases host <;>
    simp [persist, collectiveCreate, addUserWithRole, addHost, purgeCacheForPage,
      collectiveByIdLoad, activityCreate, bind, M.bind, pure, M.pure, throwE, logCall, hc, hl,
      hw'] at h <;>
    exact h

/-- When `persist` returns a collective and there is a host, the host was
attached to that collective with the flag `persist` was given, and the earlier
calls are still in the log. -/
theorem persist_ok (env : Env) (user : RemoteUser) (h : Account) (flag : Bool)
    (data : CollectiveData) (w : World) (c : Collective)
    (hok : (persist env user (some h) flag data w).1 = Except.ok c) :
    (persist env user (some h) flag data w).2.store.hostAttachments =
        w.store.hostAttachments ++ [⟨c.id, h.id, user.id, flag⟩] ∧
      Call.addHost c.id h.id flag ∈ (persist env user (some h) flag data w).2.calls ∧
      ∀ call ∈ w.calls, call ∈ (persist env user (some h) flag data w).2.calls := by
  cases hc : env.createFault data <;> cases hl : env.collectiveById user.CollectiveId <;>
    simp [persist, collectiveCreate, addUserWithRole, addHost, purgeCacheForPage,
      collectiveByIdLoad, activityCreate, bind, M.bind, pure, M.pure, throwE, logCall, hc,
      hl] at hok ⊢
  subst hok
  exact ⟨rfl, Or.inr rfl, fun call hcall => Or.inl hcall⟩

/-- Every run either stops during validation, with the store untouched and
no insert attempted, or reaches `persist` with the resolved host, the data to
insert and the approval flag; the flag is set exactly when the request went
through the GitHub check and passed it. -/
theorem run_cases (env : Env) (s : Store) (args : Args) (req : Req) :
    (∃ e calls, run env s args req = (Except.error e, { store := s, calls := calls }) ∧
      ∀ d, Call.collectiveCreate d ∉ calls) ∨
    (∃ user host flag data calls, req.remoteUser = some user ∧
      run env s args req = persist env user host flag data { store := s, calls := calls } ∧
      (∀ d, Call.collectiveCreate d ∉ calls) ∧
      ((args.host = none ∧ host = none) ∨
        ∃ input h, args.host = some input ∧ env.fetchAccountWithInput input = some h ∧
          host = some h) ∧
      (flag = true ↔ ∃ h githubHandle account, host = some h ∧ h.id = env.opensourceHostId ∧
        args.automateApprovalWithGithub = true ∧
        args.collective.githubHandle = some githubHandle ∧ githubHandle ≠ "" ∧
        env.findConnectedAccount user.CollectiveId "github" = some account ∧
        env.handleOpenSourceAutomatedApproval githubHandle account.token = none) ∧
      (flag = true → ∀ githubHandle account,
        args.collective.githubHandle = some githubHandle →
        env.findConnectedAccount user.CollectiveId "github" = some account →
        Call.handleOpenSourceAutomatedApproval githubHandle account.token ∈ calls)) := by
  cases hu : req.remoteUser with
  | none =>
    left
    simp [run, createCollective, initialCollectiveData, throwE, hu]
    exact ⟨_, _, ⟨rfl, rfl⟩, by simp⟩
  | some user =>
    cases hf : s.collectives.find? (fun c => c.slug == env.toLowerCase args.collective.slug) with
    | some c0 =>
      left
      simp [run, createCollective, initialCollectiveData, collectiveFindOne, bind, M.bind, throwE,
        hu, hf]
      exact ⟨_, _, ⟨rfl, rfl⟩, by simp⟩
    | none =>
      cases hh : args.host with
      | none =>
        cases hg : (args.automateApprovalWithGithub && truthy args.collective.githubHandle) with
        | true =>
          left
          simp [run, createCollective, initialCollectiveData, resolveHost, collectiveFindOne,
            automatedApproval, bind, M.bind, pure, M.pure, throwE, logCall, hu, hf, hh, hg]
          exact ⟨_, _, ⟨rfl, rfl⟩, by simp⟩
        | false =>
          right
          refine ⟨user, none, false, initialCollectiveData args user,
            [Call.collectiveFindOne (env.toLowerCase args.collective.slug)],
            rfl, ?_, ?_, Or.inl ⟨rfl, rfl⟩, ?_, ?_⟩
          · simp [run, createCollective, initialCollectiveData, resolveHost, collectiveFindOne,
              automatedApproval, bind, M.bind, pure, M.pure, throwE, logCall, hu, hf, hh, hg]
          · simp
          · simp
          · simp
      | some input =>
        cases hfa : env.fetchAccountWithInput input with
        | none =>
          left
          simp [run, createCollective, initialCollectiveData, resolveHost, fetchAccountWithInput,
            collectiveFindOne, bind, M.bind, pure, M.pure, throwE, logCall, hu, hf, hh, hfa]
          exact ⟨_, _, ⟨rfl, rfl⟩, by simp⟩
        | some h =>
          cases hia : h.isHostAccount with
          | false =>
            left
            simp [run, createCollective, initialCollectiveData, resolveHost, fetchAccountWithInput,
              collectiveFindOne, bind, M.bind, pure, M.pure, throwE, logCall, hu, hf, hh, hfa, hia]
            exact ⟨_, _, ⟨rfl, rfl⟩, by simp⟩
          | true =>
            by_cases hgate : args.automateApprovalWithGithub = true ∧
                (∃ gh, args.collective.githubHandle = some gh ∧ gh ≠ "") ∧
                h.id = env.opensourceHostId
            · obtain ⟨hauto, ⟨gh, hgh, hne⟩, hosc⟩ := hgate
              cases hacc : env.findConnectedAccount user.CollectiveId "github" with
              | none =>
                left
                simp [run, createCollective, initialCollectiveData, resolveHost,
                  fetchAccountWithInput, collectiveFindOne, automatedApproval, verifyWithGithub,
                  connectedAccountFindOne, tryCatchE, truthy, bind, M.bind, pure, M.pure, throwE,
                  logCall, hu, hf, hh, hfa, hia, hosc, hauto, hgh, hne, hacc]
                exact ⟨_, _, ⟨rfl, rfl⟩, by simp⟩
              | some account =>
                cases hv : env.handleOpenSourceAutomatedApproval gh account.token with
                | some e =>
                  left
                  simp [run, createCollective, initialCollectiveData, resolveHost,
                    fetchAccountWithInput, collectiveFindOne, automatedApproval, verifyWithGithub,
                    connectedAccountFindOne, handleOpenSourceAutomatedApproval, tryCatchE, truthy,
                    bind, M.bind, pure, M.pure, throwE, logCall, hu, hf, hh, hfa, hia, hosc, hauto,
                    hgh, hne, hacc, hv]
                  exact ⟨_, _, ⟨rfl, rfl⟩, by simp⟩
                | none =>
                  right
                  refine ⟨user, some h, true, markOpenSource (initialCollectiveData args user) gh,
                    [Call.collectiveFindOne (env.toLowerCase args.collective.slug),
                      Call.fetchAccountWithInput input,
                      Call.connectedAccountFindOne user.CollectiveId "github",
                      Call.handleOpenSourceAutomatedApproval gh account.token],
                    rfl, ?_, ?_, Or.inr ⟨input, h, rfl, hfa, rfl⟩, ?_, ?_⟩
                  · simp [run, createCollective, initialCollectiveData, resolveHost,
                      fetchAccountWithInput, collectiveFindOne, automatedApproval, verifyWithGithub,
                      connectedAccountFindOne, handleOpenSourceAutomatedApproval, tryCatchE, truthy,
                      bind, M.bind, pure, M.pure, throwE, logCall, hu, hf, hh, hfa, hia, hosc,
                      hauto, hgh, hne, hacc, hv]
                  · simp
                  · simp only [true_iff]
                    exact ⟨h, gh, account, rfl, hosc, hauto, hgh, hne, hacc, hv⟩
                  · intro _ gh' account' hgh' hacc'
                    rw [hgh] at hgh'
                    rw [hacc] at hacc'
                    cases hgh'
                    cases hacc'
                    simp
            · right
              refine ⟨user, some h, false, initialCollectiveData args user,
                [Call.collectiveFindOne (env.toLowerCase args.collective.slug),
                  Call.fetchAccountWithInput input],
                rfl, ?_, ?_, Or.inr ⟨input, h, rfl, hfa, rfl⟩, ?_, ?_⟩
              · have hskip : automatedApproval env args user (some h)
                    (initialCollectiveData args user) =
                    pure (false,
                      (initialCollectiveData args user)) := by
                  unfold automatedApproval
                  by_cases hosc : h.id = env.opensourceHostId
                  · have : (args.automateApprovalWithGithub &&
                        truthy args.collective.githubHandle) = false := by
                      cases hauto : args.automateApprovalWithGithub with
                      | false => simp
                      | true =>
                        cases hgh : args.collective.githubHandle with
                        | none => simp [truthy]
                        | some gh =>
                          by_cases hne : gh = ""
                          · simp [truthy, hne]
                          · exact absurd ⟨hauto, ⟨gh, hgh, hne⟩, hosc⟩ hgate
                    simp [this]
                  · simp [hosc]
                have hslug : (initialCollectiveData args user).slug = args.collective.slug := rfl
                simp [run, createCollective, resolveHost, fetchAccountWithInput, collectiveFindOne,
                  hskip, hslug, bind, M.bind, pure, M.pure, throwE, logCall, hu, hf, hh, hfa, hia]
              · simp
              · simp only [Bool.false_eq_true, false_iff]
                rintro ⟨h', gh, account, hh', hosc, hauto, hgh, hne, -, -⟩
                cases hh'
                exact hgate ⟨hauto, ⟨gh, hgh, hne⟩, hosc⟩
              · simp

/-! ## Creation without a host -/

/-- Claim C1, evaluated: an authenticated request with the free slug `foo`, no
host, `automateApprovalWithGithub = true` and the handle `acme/widget` does
not succeed; the read of `host.id` throws a `TypeError` before anything is
written.  The same request with `automateApprovalWithGithub = false` succeeds:
the collective is inactive and the one role grant recorded is `ADMIN` for the
requesting user. -/
theorem createCollective_automation_without_host_throws :
    run env1 emptyStore
        { collective := widgetInput, host := none, automateApprovalWithGithub := true } req1 =
      (Except.error ⟨ErrorClass.TypeError, "Cannot read property id of undefined"⟩,
        { store := emptyStore, calls := [Call.collectiveFindOne "foo"] }) ∧
    (∃ c, (run env1 emptyStore
          { collective := widgetInput, host := none, automateApprovalWithGithub := false }
          req1).1 = Except.ok c ∧
      c.isActive = false ∧
      (run env1 emptyStore
          { collective := widgetInput, host := none, automateApprovalWithGithub := false }
          req1).2.store.roleGrants = [⟨c.id, user1.id, Role.ADMIN, user1.id⟩]) :=
  ⟨rfl, _, rfl, rfl, rfl⟩

/-! ## The slug check -/

/-- Claim C2 fails as stated: with the row `foo` in the table, the request
for `Foo` matches it after lowercasing both slugs and fails, but with a plain
`Error`, not with `Conflict`. -/
theorem slug_taken_not_conflict_counterexample :
    env1.toLowerCase "Foo" = "foo" ∧
    env1.toLowerCase "Foo" = env1.toLowerCase (existingCollective "foo").slug ∧
    (run env1 (storeWith "foo")
        { collective := { fooInput with slug := "Foo" }, host := none,
          automateApprovalWithGithub := false } req1).1 =
      Except.error ⟨ErrorClass.Error, slugTakenMessage "Foo"⟩ ∧
    ∀ m, (run env1 (storeWith "foo")
        { collective := { fooInput with slug := "Foo" }, host := none,
          automateApprovalWithGithub := false } req1).1 ≠
      Except.error ⟨ErrorClass.Conflict, m⟩ := by
  refine ⟨rfl, rfl, rfl, ?_⟩
  intro m h
  cases h

/-- Claim C2, amended: for an authenticated request whose slug matches, after
lowercasing both, the slug of an existing collective that is stored in
lowercase, the resolver throws a plain `Error` with the slug-taken message for
the slug as it was given, after the lookup and nothing else. -/
theorem createCollective_slug_taken (env : Env) (s : Store) (args : Args) (req : Req)
    (user : RemoteUser) (c : Collective)
    (hu : req.remoteUser = some user)
    (hc : c ∈ s.collectives)
    (hmatch : env.toLowerCase c.slug = env.toLowerCase args.collective.slug)
    (hstored : env.toLowerCase c.slug = c.slug) :
    run env s args req =
      (Except.error ⟨ErrorClass.Error, slugTakenMessage args.collective.slug⟩,
        { store := s,
          calls := [Call.collectiveFindOne (env.toLowerCase args.collective.slug)] }) := by
  have hf := find_some_of_taken s _ ⟨c, hc, hstored.symm.trans hmatch⟩
  simp [run, createCollective, initialCollectiveData, collectiveFindOne, bind, M.bind, throwE,
    hu, hf]

/-- The amended claim C2 at the request for `Foo` when `foo` exists. -/
theorem createCollective_slug_taken_witness :
    run env1 (storeWith "foo")
        { collective := { fooInput with slug := "Foo" }, host := none,
          automateApprovalWithGithub := false } req1 =
      (Except.error ⟨ErrorClass.Error,
          "The slug Foo is already taken. Please use another slug for your collective.\x7d."⟩,
        { store := storeWith "foo", calls := [Call.collectiveFindOne "foo"] }) :=
  createCollective_slug_taken env1 (storeWith "foo")
    { collective := { fooInput with slug := "Foo" }, host := none,
      automateApprovalWithGithub := false } req1 user1 (existingCollective "foo") rfl
    (by simp [storeWith]) rfl rfl

/-! ## Failures before the insert -/

/-- Claim C3: when there is no actor, or the lowercased slug is taken, or the
host reference resolves to nothing, or the resolved account is not activated
as host, or the request is in the automated approval and the actor has no
linked GitHub account or the GitHub check throws, then the resolver fails and
the store is what it was: no collective, role grant, host attachment, cache
purge or activity has been added. -/
theorem createCollective_validation_failure_store_unchanged (env : Env) (s : Store)
    (args : Args) (req : Req)
    (h : req.remoteUser = none
      ∨ (∃ c ∈ s.collectives, c.slug = env.toLowerCase args.collective.slug)
      ∨ (∃ input, args.host = some input ∧ env.fetchAccountWithInput input = none)
      ∨ (∃ input host, args.host = some input ∧
          env.fetchAccountWithInput input = some host ∧ host.isHostAccount = false)
      ∨ (∃ user input host githubHandle, req.remoteUser = some user ∧
          args.host = some input ∧
          env.fetchAccountWithInput input = some host ∧ host.id = env.opensourceHostId ∧
          args.automateApprovalWithGithub = true ∧
          args.collective.githubHandle = some githubHandle ∧ githubHandle ≠ "" ∧
          (env.findConnectedAccount user.CollectiveId "github" = none
            ∨ ∃ account e,
              env.findConnectedAccount user.CollectiveId "github" = some account ∧
              env.handleOpenSourceAutomatedApproval githubHandle account.token = some e))) :
    (∃ e, (run env s args req).1 = Except.error e) ∧ (run env s args req).2.store = s := by
  cases hu : req.remoteUser with
  | none => simp [run, createCollective, throwE, hu]
  | some user =>
    cases hf : s.collectives.find? (fun c => c.slug == env.toLowerCase args.collective.slug) with
    | some c0 =>
      simp [run, createCollective, initialCollectiveData, collectiveFindOne, bind, M.bind, throwE,
        hu, hf]
    | none =>
      have hfree : ¬ ∃ c ∈ s.collectives, c.slug = env.toLowerCase args.collective.slug := by
        rintro ⟨c, hc, hcs⟩
        have := List.find?_eq_none.mp hf c hc
        simp [hcs] at this
      rcases h with h | h | ⟨input, hh, hfa⟩ | ⟨input, host, hh, hfa, hna⟩ |
        ⟨user', input, host, gh, hu', hh, hfa, hosc, hauto, hgh, hne, hacc⟩
      · simp [hu] at h
      · exact absurd h hfree
      · simp [run, createCollective, initialCollectiveData, resolveHost, fetchAccountWithInput,
          collectiveFindOne, bind, M.bind, pure, M.pure, throwE, logCall, hu, hf, hh, hfa]
      · simp [run, createCollective, initialCollectiveData, resolveHost, fetchAccountWithInput,
          collectiveFindOne, bind, M.bind, pure, M.pure, throwE, logCall, hu, hf, hh, hfa, hna]
      · rw [hu] at hu'
        cases hu'
        cases hia : host.isHostAccount with
        | false =>
          simp [run, createCollective, initialCollectiveData, resolveHost, fetchAccountWithInput,
            collectiveFindOne, bind, M.bind, pure, M.pure, throwE, logCall, hu, hf, hh, hfa, hia]
        | true =>
          rcases hacc with hacc | ⟨account, e, hacc, hfail⟩
          · simp [run, createCollective, initialCollectiveData, resolveHost, fetchAccountWithInput,
              collectiveFindOne, automatedApproval, verifyWithGithub, connectedAccountFindOne,
              tryCatchE, truthy, bind, M.bind, pure, M.pure, throwE, logCall, hu, hf, hh, hfa, hia,
              hosc, hauto, hgh, hne, hacc]
          · simp [run, createCollective, initialCollectiveData, resolveHost, fetchAccountWithInput,
              collectiveFindOne, automatedApproval, verifyWithGithub, connectedAccountFindOne,
              handleOpenSourceAutomatedApproval, tryCatchE, truthy, bind, M.bind, pure, M.pure,
              throwE, logCall, hu, hf, hh, hfa, hia, hosc, hauto, hgh, hne, hacc, hfail]

/-- Claim C3 at a request whose GitHub check throws. -/
theorem createCollective_validation_failure_store_unchanged_witness :
    (∃ e, (run envGithubFails emptyStore oscArgs req1).1 = Except.error e) ∧
      (run envGithubFails emptyStore oscArgs req1).2.store = emptyStore :=
  createCollective_validation_failure_store_unchanged envGithubFails emptyStore oscArgs req1
    (Or.inr (Or.inr (Or.inr (Or.inr
      ⟨user1, AccountInput.id 772, oscHost, "acme/widget", rfl, rfl, rfl, rfl, rfl, rfl,
        by decide, Or.inr ⟨githubAccount1, _, rfl, rfl⟩⟩))))

/-! ## The host reference -/

/-- Claim C4 fails as stated: the host reference `99` resolves to nothing and
the resolver fails with `ValidationFailed`, not with `NotFound`. -/
theorem host_missing_not_notFound_counterexample :
    env1.fetchAccountWithInput (AccountInput.id 99) = none ∧
    (run env1 emptyStore
        { collective := fooInput, host := some (AccountInput.id 99),
          automateApprovalWithGithub := false } req1).1 =
      Except.error ⟨ErrorClass.ValidationFailed, "Host Not Found"⟩ ∧
    ∀ m, (run env1 emptyStore
        { collective := fooInput, host := some (AccountInput.id 99),
          automateApprovalWithGithub := false } req1).1 ≠
      Except.error ⟨ErrorClass.NotFound, m⟩ := by
  refine ⟨rfl, rfl, ?_⟩
  intro m h
  cases h

/-- Claim C4, amended: for an authenticated request with a free slug whose
host reference resolves to nothing, the resolver fails with
`ValidationFailed` and the message `Host Not Found`; the store is unchanged
and the only calls made are the slug lookup and the host resolution. -/
theorem createCollective_host_missing (env : Env) (s : Store) (args : Args) (req : Req)
    (user : RemoteUser) (input : AccountInput)
    (hu : req.remoteUser = some user)
    (hfree : ∀ c ∈ s.collectives, c.slug ≠ env.toLowerCase args.collective.slug)
    (hh : args.host = some input)
    (hfa : env.fetchAccountWithInput input = none) :
    run env s args req =
      (Except.error ⟨ErrorClass.ValidationFailed, "Host Not Found"⟩,
        { store := s,
          calls := [Call.collectiveFindOne (env.toLowerCase args.collective.slug),
            Call.fetchAccountWithInput input] }) := by
  have hf := find_none_of_free s _ hfree
  simp [run, createCollective, initialCollectiveData, resolveHost, fetchAccountWithInput,
    collectiveFindOne, bind, M.bind, pure, M.pure, throwE, logCall, hu, hf, hh, hfa]

/-- The amended claim C4 at the host reference `99`. -/
theorem createCollective_host_missing_witness :
    run env1 emptyStore
        { collective := fooInput, host := some (AccountInput.id 99),
          automateApprovalWithGithub := false } req1 =
      (Except.error ⟨ErrorClass.ValidationFailed, "Host Not Found"⟩,
        { store := emptyStore,
          calls := [Call.collectiveFindOne "foo",
            Call.fetchAccountWithInput (AccountInput.id 99)] }) :=
  createCollective_host_missing env1 emptyStore
    { collective := fooInput, host := some (AccountInput.id 99),
      automateApprovalWithGithub := false } req1 user1 (AccountInput.id 99) rfl
    (by simp [emptyStore]) rfl rfl

/-! ## The automated approval -/

/-- Claim C5 fails as stated: a request that passes the automated approval
with the tags `open source`, `open source` is stored with both of them. -/
theorem open_source_tag_twice_counterexample :
    ApprovedByGithub env1 emptyStore twiceTaggedArgs req1 user1 oscHost "acme/widget"
      githubAccount1 ∧
    (run env1 emptyStore twiceTaggedArgs req1).2.store.collectives.map (fun c => c.tags) =
      [some ["open source", "open source"]] ∧
    List.count "open source" ["open source", "open source"] = 2 :=
  ⟨⟨rfl, by simp [emptyStore], ⟨_, rfl, rfl⟩, rfl, rfl, rfl, ⟨rfl, by decide⟩, rfl,
      rfl⟩,
    rfl, by decide⟩

/-- Claim C5, amended: when a request passes the automated approval and the
insert of its data does not fail, one row is added; its tags are present and
hold `open source` as often as the input tags do, and once when the input
tags are absent or do not hold it.  So the tag occurs exactly once for input
tags that are absent, empty, without it or with one occurrence of it. -/
theorem createCollective_open_source_tag_count (env : Env) (s : Store) (args : Args)
    (req : Req) (user : RemoteUser) (host : Account) (githubHandle : String)
    (account : ConnectedAccount)
    (h : ApprovedByGithub env s args req user host githubHandle account)
    (hc : env.createFault (markOpenSource (initialCollectiveData args user) githubHandle) =
      none) :
    ∃ c t, (run env s args req).2.store.collectives = s.collectives ++ [c] ∧
      c.tags = some t ∧
      t.count "open source" = max 1 ((args.collective.tags.getD []).count "open source") ∧
      ((args.collective.tags.getD []).count "open source" ≤ 1 → t.count "open source" = 1) := by
  obtain ⟨t, ht, hcount⟩ :=
    markOpenSource_tags_count (initialCollectiveData args user) githubHandle
  refine ⟨_, t, approved_collectives env s args req user host githubHandle account h hc, ht,
    hcount, ?_⟩
  intro hle
  rw [hcount]
  have hd : (initialCollectiveData args user).tags = args.collective.tags := rfl
  rw [hd]
  omega

/-- The amended claim C5 at the request `oscArgs`, which has no tags: the row
added has the tags `open source`, once. -/
theorem createCollective_open_source_tag_count_witness :
    (run env1 emptyStore oscArgs req1).2.store.collectives.map (fun c => c.tags) =
      [some ["open source"]] ∧
    ∃ c t,
      (run env1 emptyStore oscArgs req1).2.store.collectives = emptyStore.collectives ++ [c] ∧
      c.tags = some t ∧
      t.count "open source" = max 1 ((oscArgs.collective.tags.getD []).count "open source") ∧
      ((oscArgs.collective.tags.getD []).count "open source" ≤ 1 →
        t.count "open source" = 1) :=
  ⟨rfl, createCollective_open_source_tag_count env1 emptyStore oscArgs req1 user1 oscHost
    "acme/widget" githubAccount1
    ⟨rfl, by simp [emptyStore], ⟨_, rfl, rfl⟩, rfl, rfl, rfl, ⟨rfl, by decide⟩, rfl,
      rfl⟩
    rfl⟩

/-- Claim C6: when a request passes the automated approval with handle `h`
and the insert of its data does not fail, the settings of the row added keep
`features.conversations = true`; if the character `/` occurs in `h` they have
`githubRepo` equal to `h` and no `githubOrg`; if it does not occur they have
`githubOrg` equal to `h` and no `githubRepo`. -/
theorem createCollective_github_settings (env : Env) (s : Store) (args : Args)
    (req : Req) (user : RemoteUser) (host : Account) (githubHandle : String)
    (account : ConnectedAccount)
    (h : ApprovedByGithub env s args req user host githubHandle account)
    (hc : env.createFault (markOpenSource (initialCollectiveData args user) githubHandle) =
      none) :
    ∃ c, (run env s args req).2.store.collectives = s.collectives ++ [c] ∧
      c.settings.get "features" = some (SettingValue.features [("conversations", true)]) ∧
      ('/' ∈ githubHandle.data →
        c.settings.get "githubRepo" = some (SettingValue.text githubHandle) ∧
          c.settings.get "githubOrg" = none) ∧
      ('/' ∉ githubHandle.data →
        c.settings.get "githubOrg" = some (SettingValue.text githubHandle) ∧
          c.settings.get "githubRepo" = none) := by
  obtain ⟨hfeat, hrepo, horg⟩ :=
    markOpenSource_settings (initialCollectiveData args user) githubHandle rfl
  refine ⟨_, approved_collectives env s args req user host githubHandle account h hc, hfeat,
    ?_, ?_⟩
  · intro hmem
    exact hrepo ((includes_eq_true_iff githubHandle '/').mpr hmem)
  · intro hmem
    apply horg
    cases hi : includes githubHandle '/' with
    | false => rfl
    | true => exact absurd ((includes_eq_true_iff githubHandle '/').mp hi) hmem

/-- Claim C6 at the handle `acme/widget`, stored as `githubRepo`, and at the
handle `acme`, stored as `githubOrg`. -/
theorem createCollective_github_settings_witness :
    (∃ c, (run env1 emptyStore oscArgs req1).2.store.collectives = [c] ∧
      c.settings.get "features" = some (SettingValue.features [("conversations", true)]) ∧
      c.settings.get "githubRepo" = some (SettingValue.text "acme/widget") ∧
      c.settings.get "githubOrg" = none) ∧
    (∃ c, (run env1 emptyStore orgArgs req1).2.store.collectives = [c] ∧
      c.settings.get "features" = some (SettingValue.features [("conversations", true)]) ∧
      c.settings.get "githubOrg" = some (SettingValue.text "acme") ∧
      c.settings.get "githubRepo" = none) := by
  constructor
  · obtain ⟨c, hrow, hfeat, hrepo, -⟩ :=
      createCollective_github_settings env1 emptyStore oscArgs req1 user1 oscHost
        "acme/widget" githubAccount1
        ⟨rfl, by simp [emptyStore], ⟨_, rfl, rfl⟩, rfl, rfl, rfl, ⟨rfl, by decide⟩, rfl,
          rfl⟩
        rfl
    exact ⟨c, hrow, hfeat, hrepo (by decide)⟩
  · obtain ⟨c, hrow, hfeat, -, horg⟩ :=
      createCollective_github_settings env1 emptyStore orgArgs req1 user1 oscHost
        "acme" githubAccount1
        ⟨rfl, by simp [emptyStore], ⟨_, rfl, rfl⟩, rfl, rfl, rfl, ⟨rfl, by decide⟩, rfl,
          rfl⟩
        rfl
    exact ⟨c, hrow, hfeat, horg (by decide)⟩

/-! ## A host other than the open source host -/

/-- Claim C7: when the host reference resolves to an activated host that is
not the open source host, the run with `automateApprovalWithGithub = true` is
the run with `automateApprovalWithGithub = false`: same result, same store,
same calls.  No linked-account lookup and no GitHub check are among the
calls.  If moreover the actor is authenticated, the slug is free, the insert
of the data and the load of the actor's collective do not fail, the resolver
returns a
collective with the tags of the input and the default settings, the host is
attached with `shouldAutomaticallyApprove = false` and the page `/` followed
by the host's slug is purged. -/
theorem createCollective_other_host_skips_automation (env : Env) (s : Store) (args : Args)
    (req : Req) (input : AccountInput) (host : Account)
    (hh : args.host = some input)
    (hfa : env.fetchAccountWithInput input = some host)
    (hia : host.isHostAccount = true)
    (hosc : host.id ≠ env.opensourceHostId) :
    run env s { args with automateApprovalWithGithub := true } req =
        run env s { args with automateApprovalWithGithub := false } req ∧
    (∀ call ∈ (run env s { args with automateApprovalWithGithub := true } req).2.calls,
      (∀ id service, call ≠ Call.connectedAccountFindOne id service) ∧
      (∀ handle token, call ≠ Call.handleOpenSourceAutomatedApproval handle token)) ∧
    (∀ user userCollective, req.remoteUser = some user →
      (∀ c ∈ s.collectives, c.slug ≠ env.toLowerCase args.collective.slug) →
      env.createFault (initialCollectiveData args user) = none →
      env.collectiveById user.CollectiveId = some userCollective →
      ∃ c, (run env s { args with automateApprovalWithGithub := true } req).1 = Except.ok c ∧
        c.tags = args.collective.tags ∧ c.settings = DEFAULT_COLLECTIVE_SETTINGS ∧
        (run env s { args with automateApprovalWithGithub := true } req).2.store.hostAttachments =
          s.hostAttachments ++ [⟨c.id, host.id, user.id, false⟩] ∧
        (run env s { args with automateApprovalWithGithub := true } req).2.store.purgedPages =
          s.purgedPages ++ ["/" ++ host.slug]) := by
  have hrun : ∀ b, run env s { args with automateApprovalWithGithub := b } req =
      run env s { args with automateApprovalWithGithub := false } req := by
    intro b
    cases hu : req.remoteUser with
    | none => simp [run, createCollective, initialCollectiveData, hu]
    | some user =>
      cases hf : s.collectives.find? (fun c => c.slug == env.toLowerCase args.collective.slug) <;>
      simp [run, createCollective, initialCollectiveData, resolveHost, fetchAccountWithInput,
        collectiveFindOne, automatedApproval, bind, M.bind, pure, M.pure, throwE, logCall, hu, hf,
        hh, hfa, hia, hosc]
  refine ⟨hrun true, ?_, ?_⟩
  · rw [hrun true]
    cases hu : req.remoteUser with
    | none => simp [run, createCollective, initialCollectiveData, throwE, hu]
    | some user =>
      cases hf : s.collectives.find? (fun c => c.slug == env.toLowerCase args.collective.slug) with
      | some c0 => simp [run, createCollective, initialCollectiveData, collectiveFindOne, bind,
        M.bind, throwE, hu, hf]
      | none =>
        cases hc : env.createFault (initialCollectiveData args user) <;>
        cases hl : env.collectiveById user.CollectiveId <;>
        simp only [initialCollectiveData] at hc <;>
        simp [run, createCollective, initialCollectiveData, resolveHost, fetchAccountWithInput,
          collectiveFindOne, automatedApproval, persist, collectiveCreate, addUserWithRole, addHost,
          purgeCacheForPage, collectiveByIdLoad, activityCreate, bind, M.bind, pure, M.pure, throwE,
          logCall, hu, hf, hh, hfa, hia, hc, hl]
  · intro user userCollective hu hfree hc hl
    rw [hrun true]
    have hf := find_none_of_free s _ hfree
    simp only [initialCollectiveData] at hc
    simp [run, createCollective, initialCollectiveData, resolveHost, fetchAccountWithInput,
      collectiveFindOne, automatedApproval, persist, collectiveCreate, addUserWithRole, addHost,
      purgeCacheForPage, collectiveByIdLoad, activityCreate, bind, M.bind, pure, M.pure, throwE,
      logCall, hu, hf, hh, hfa, hia, hc, hl]

/-- Claim C7 at the request `h1Args`, for the host `hostH1`. -/
theorem createCollective_other_host_skips_automation_witness :
    hostH1.id ≠ env1.opensourceHostId ∧
    run env1 emptyStore { h1Args with automateApprovalWithGithub := true } req1 =
      run env1 emptyStore { h1Args with automateApprovalWithGithub := false } req1 ∧
    (run env1 emptyStore { h1Args with automateApprovalWithGithub := true } req1).2.calls =
      [Call.collectiveFindOne "foo", Call.fetchAccountWithInput (AccountInput.id 5),
        Call.collectiveCreate (initialCollectiveData h1Args user1),
        Call.addUserWithRole 1 1 Role.ADMIN, Call.addHost 1 5 false,
        Call.purgeCacheForPage "/h1", Call.collectiveByIdLoad 10,
        Call.activityCreate ActivityType.COLLECTIVE_CREATED] ∧
    ∃ c, (run env1 emptyStore { h1Args with automateApprovalWithGithub := true } req1).1 =
        Except.ok c ∧
      c.tags = h1Args.collective.tags ∧ c.settings = DEFAULT_COLLECTIVE_SETTINGS ∧
      (run env1 emptyStore { h1Args with automateApprovalWithGithub := true }
          req1).2.store.hostAttachments =
        emptyStore.hostAttachments ++ [⟨c.id, hostH1.id, user1.id, false⟩] ∧
      (run env1 emptyStore { h1Args with automateApprovalWithGithub := true }
          req1).2.store.purgedPages =
        emptyStore.purgedPages ++ ["/" ++ hostH1.slug] :=
  ⟨by decide,
    (createCollective_other_host_skips_automation env1 emptyStore h1Args req1
      (AccountInput.id 5) hostH1 rfl rfl rfl (by decide)).1,
    rfl,
    (createCollective_other_host_skips_automation env1 emptyStore h1Args req1
      (AccountInput.id 5) hostH1 rfl rfl rfl (by decide)).2.2 user1
      { id := 10, slug := "user", isHostAccount := false } rfl (by simp [emptyStore]) rfl rfl⟩

/-! ## Failures of the GitHub check -/

/-- Claim C8: for an authenticated request with a free slug on the open
source host, with automation requested and a non-empty handle: if the actor
has no linked GitHub account the resolver fails with `ValidationFailed` and
the message about the missing connected account; if the GitHub check throws
an error `e`, of whatever class, the resolver fails with `ValidationFailed`
and the message of `e`. -/
theorem createCollective_github_failure_validationFailed (env : Env) (s : Store)
    (args : Args) (req : Req) (user : RemoteUser) (input : AccountInput) (host : Account)
    (githubHandle : String)
    (hu : req.remoteUser = some user)
    (hfree : ∀ c ∈ s.collectives, c.slug ≠ env.toLowerCase args.collective.slug)
    (hh : args.host = some input)
    (hfa : env.fetchAccountWithInput input = some host)
    (hia : host.isHostAccount = true)
    (hosc : host.id = env.opensourceHostId)
    (hauto : args.automateApprovalWithGithub = true)
    (hgh : args.collective.githubHandle = some githubHandle)
    (hne : githubHandle ≠ "") :
    (env.findConnectedAccount user.CollectiveId "github" = none →
      (run env s args req).1 = Except.error ⟨ErrorClass.ValidationFailed,
        "You must have a connected GitHub Account to claim a collective"⟩) ∧
    (∀ account e, env.findConnectedAccount user.CollectiveId "github" = some account →
      env.handleOpenSourceAutomatedApproval githubHandle account.token = some e →
      (run env s args req).1 = Except.error ⟨ErrorClass.ValidationFailed, e.message⟩) := by
  have hf := find_none_of_free s _ hfree
  constructor
  · intro hacc
    simp [run, createCollective, initialCollectiveData, resolveHost, fetchAccountWithInput,
      collectiveFindOne, automatedApproval, verifyWithGithub, connectedAccountFindOne, tryCatchE,
      truthy, bind, M.bind, pure, M.pure, throwE, logCall, hu, hf, hh, hfa, hia, hosc, hauto, hgh,
      hne, hacc]
  · intro account e hacc hfail
    simp [run, createCollective, initialCollectiveData, resolveHost, fetchAccountWithInput,
      collectiveFindOne, automatedApproval, verifyWithGithub, connectedAccountFindOne,
      handleOpenSourceAutomatedApproval, tryCatchE, truthy, bind, M.bind, pure, M.pure, throwE,
      logCall, hu, hf, hh, hfa, hia, hosc, hauto, hgh, hne, hacc, hfail]

/-- Claim C8 at a request whose GitHub check throws a `GithubError`. -/
theorem createCollective_github_failure_validationFailed_witness :
    (run envGithubFails emptyStore oscArgs req1).1 =
      Except.error ⟨ErrorClass.ValidationFailed,
        "We could not verify that you are admin of the repository"⟩ :=
  (createCollective_github_failure_validationFailed envGithubFails emptyStore oscArgs req1
    user1 (AccountInput.id 772) oscHost "acme/widget" rfl (by simp [emptyStore]) rfl rfl rfl
    rfl rfl rfl (by decide)).2 githubAccount1
    ⟨ErrorClass.GithubError, "We could not verify that you are admin of the repository"⟩
    rfl rfl

/-! ## Failures of the insert -/

/-- Claim C9 fails as stated: when the insert reports a uniqueness violation
the resolver fails with that very error, not with `Conflict`; when the insert
fails for another reason the resolver fails with that error, not with
`Internal`. -/
theorem create_fault_not_remapped_counterexample :
    ((run envUniqueViolation emptyStore
        { collective := fooInput, host := none, automateApprovalWithGithub := false } req1).1 =
      Except.error ⟨ErrorClass.UniqueConstraintError, "slug must be unique"⟩ ∧
      ∀ m, (run envUniqueViolation emptyStore
        { collective := fooInput, host := none, automateApprovalWithGithub := false } req1).1 ≠
      Except.error ⟨ErrorClass.Conflict, m⟩) ∧
    ((run envDatabaseDown emptyStore
        { collective := fooInput, host := none, automateApprovalWithGithub := false } req1).1 =
      Except.error ⟨ErrorClass.DatabaseError, "connection terminated"⟩ ∧
      ∀ m, (run envDatabaseDown emptyStore
        { collective := fooInput, host := none, automateApprovalWithGithub := false } req1).1 ≠
      Except.error ⟨ErrorClass.Internal, m⟩) := by
  refine ⟨⟨rfl, ?_⟩, rfl, ?_⟩ <;>
  · intro m h
    cases h

/-- Claim C9, amended: when the resolver reaches the insert, with data `d`,
and the insert fails with an error `e`, the resolver fails with `e` itself,
whatever its class, and the store is unchanged. -/
theorem createCollective_create_fault_propagates (env : Env) (s : Store) (args : Args)
    (req : Req) (d : CollectiveData) (e : Thrown)
    (hcall : Call.collectiveCreate d ∈ (run env s args req).2.calls)
    (hfault : env.createFault d = some e) :
    (run env s args req).1 = Except.error e ∧ (run env s args req).2.store = s := by
  rcases run_cases env s args req with ⟨e', calls, hrun, hno⟩ |
    ⟨user, host, flag, data, calls, -, hrun, hno, -, -, -⟩
  · rw [hrun] at hcall
    exact absurd hcall (hno d)
  · rw [hrun] at hcall ⊢
    have hd := persist_create_call env user host flag data d _ hno hcall
    subst hd
    rw [persist_fault env user host flag d e _ hfault]
    exact ⟨rfl, rfl⟩

/-- The amended claim C9 at an insert that reports a uniqueness violation. -/
theorem createCollective_create_fault_propagates_witness :
    (run envUniqueViolation emptyStore
        { collective := fooInput, host := none, automateApprovalWithGithub := false } req1).1 =
      Except.error ⟨ErrorClass.UniqueConstraintError, "slug must be unique"⟩ ∧
    (run envUniqueViolation emptyStore
        { collective := fooInput, host := none, automateApprovalWithGithub := false }
        req1).2.store = emptyStore :=
  createCollective_create_fault_propagates envUniqueViolation emptyStore
    { collective := fooInput, host := none, automateApprovalWithGithub := false } req1
    (initialCollectiveData
      { collective := fooInput, host := none, automateApprovalWithGithub := false } user1)
    ⟨ErrorClass.UniqueConstraintError, "slug must be unique"⟩
    (by decide) rfl

/-! ## The approval flag -/

/-- Claim C10: when the resolver returns a collective for a request with a
host reference, the host was attached to that collective with a flag
`shouldAutomaticallyApprove` that is `true` exactly when the resolved host is
the open source host, automation was requested, a non-empty handle was given,
the actor has a linked GitHub account, and the GitHub check was called with
that handle and that account's token and returned normally. -/
theorem createCollective_shouldAutomaticallyApprove_iff (env : Env) (s : Store)
    (args : Args) (req : Req) (c : Collective) (input : AccountInput)
    (hok : (run env s args req).1 = Except.ok c)
    (hh : args.host = some input) :
    ∃ user host flag, req.remoteUser = some user ∧
      env.fetchAccountWithInput input = some host ∧
      (run env s args req).2.store.hostAttachments =
        s.hostAttachments ++ [⟨c.id, host.id, user.id, flag⟩] ∧
      Call.addHost c.id host.id flag ∈ (run env s args req).2.calls ∧
      (flag = true ↔ host.id = env.opensourceHostId ∧
        args.automateApprovalWithGithub = true ∧
        ∃ githubHandle account, args.collective.githubHandle = some githubHandle ∧
          githubHandle ≠ "" ∧
          env.findConnectedAccount user.CollectiveId "github" = some account ∧
          Call.handleOpenSourceAutomatedApproval githubHandle account.token ∈
            (run env s args req).2.calls ∧
          env.handleOpenSourceAutomatedApproval githubHandle account.token = none) := by
  rcases run_cases env s args req with ⟨e', calls, hrun, -⟩ |
    ⟨user, host, flag, data, calls, hu, hrun, -, hhost, hflag, hlog⟩
  · rw [hrun] at hok
    cases hok
  · rcases hhost with ⟨hnone, -⟩ | ⟨input', h, hh', hfa, hhost⟩
    · rw [hh] at hnone
      cases hnone
    · rw [hh] at hh'
      cases hh'
      subst hhost
      rw [hrun] at hok ⊢
      obtain ⟨hatt, hadd, hsub⟩ := persist_ok env user h flag data _ c hok
      refine ⟨user, h, flag, hu, hfa, hatt, hadd, ?_⟩
      constructor
      · intro hft
        obtain ⟨h', gh, account, hh', hosc, hauto, hgh, hne, hacc, hv⟩ := hflag.mp hft
        cases hh'
        exact ⟨hosc, hauto, gh, account, hgh, hne, hacc,
          hsub _ (hlog hft gh account hgh hacc), hv⟩
      · rintro ⟨hosc, hauto, gh, account, hgh, hne, hacc, -, hv⟩
        exact hflag.mpr ⟨h, gh, account, rfl, hosc, hauto, hgh, hne, hacc, hv⟩

/-- Claim C10 at the request `oscArgs`. -/
theorem createCollective_shouldAutomaticallyApprove_iff_witness :
    (run env1 emptyStore oscArgs req1).2.store.hostAttachments = [⟨1, 772, 1, true⟩] ∧
    ∃ user host flag, req1.remoteUser = some user ∧
      env1.fetchAccountWithInput (AccountInput.id 772) = some host ∧
      (run env1 emptyStore oscArgs req1).2.store.hostAttachments =
        emptyStore.hostAttachments ++ [⟨widgetCollective.id, host.id, user.id, flag⟩] ∧
      Call.addHost widgetCollective.id host.id flag ∈
        (run env1 emptyStore oscArgs req1).2.calls ∧
      (flag = true ↔ host.id = env1.opensourceHostId ∧
        oscArgs.automateApprovalWithGithub = true ∧
        ∃ githubHandle account, oscArgs.collective.githubHandle = some githubHandle ∧
          githubHandle ≠ "" ∧
          env1.findConnectedAccount user.CollectiveId "github" = some account ∧
          Call.handleOpenSourceAutomatedApproval githubHandle account.token ∈
            (run env1 emptyStore oscArgs req1).2.calls ∧
          env1.handleOpenSourceAutomatedApproval githubHandle account.token = none) :=
  ⟨rfl, createCollective_shouldAutomaticallyApprove_iff env1 emptyStore oscArgs req1
    widgetCollective (AccountInput.id 772) rfl rfl⟩

end CreateCollective
